import Mathlib

/-! # Per-flow network emulation: pacing scheduler and fixed-delay injector

A shallow embedding of `ebpf/network_simulation.c` and `headers/maps.h`.

* Machine integers are natural numbers; every C operation that can wrap is
  written with an explicit reduction modulo `2^32` or `2^64`.
* The two BPF hash maps are association lists; `bpf_map_lookup_elem` and
  `bpf_map_update_elem` follow the kernel helpers (flags `BPF_ANY`,
  `BPF_NOEXIST`, `BPF_EXIST`, bounded by `max_entries`).
* `bpf_ktime_get_ns()` is the argument `now`.
* A program run is a function from the packet and the maps to an `Outcome`:
  the value returned, the packet afterwards, the maps afterwards, whether
  `bpf_skb_ecn_set_ce` was called, and the index given to `bpf_tail_call`.
-/

namespace NetSim

/-! ## Constants -/

/-- The `TC_ACT_OK` verdict of `linux/pkt_cls.h`: let the packet through. -/
def TC_ACT_OK : Nat := 0

/-- The `TC_ACT_SHOT` verdict of `linux/pkt_cls.h`: drop the packet. -/
def TC_ACT_SHOT : Nat := 2

/-- Source line 15: `#define TIME_HORIZON_NS (2000 * 1000 * 1000)`; the product fits an `int`. -/
def TIME_HORIZON_NS : Nat := 2000 * 1000 * 1000

/-- Source line 16: `#define NS_PER_SEC 1000000000`. -/
def NS_PER_SEC : Nat := 1000000000

/-- Source line 17: `#define ECN_HORIZON_NS 500000000`. -/
def ECN_HORIZON_NS : Nat := 500000000

/-- Source line 18: `#define NS_PER_MS 1000000`. -/
def NS_PER_MS : Nat := 1000000

/-- The `ETH_ALEN` of `linux/if_ether.h`: octets in a hardware address. -/
def ETH_ALEN : Nat := 6

/-- The `max_entries` of both `flow_map` and `MAC_HANDLE_BPS_DELAY`. -/
def MAX_ENTRIES : Nat := 65535

/-- Update flag of `linux/bpf.h`: create a new element or update an existing one. -/
def BPF_ANY : Nat := 0

/-- Update flag of `linux/bpf.h`: create a new element only if it did not exist. -/
def BPF_NOEXIST : Nat := 1

/-- Update flag of `linux/bpf.h`: update an existing element only. -/
def BPF_EXIST : Nat := 2

/-! ## Machine arithmetic -/

/-- Reduction of a natural number to an unsigned 32-bit value. -/
def u32 (n : Nat) : Nat := n % 2 ^ 32

/-- Reduction of a natural number to an unsigned 64-bit value. -/
def u64 (n : Nat) : Nat := n % 2 ^ 64

/-- Unsigned 64-bit subtraction `a - b` of two 64-bit values, wrapping below zero. -/
def u64_sub (a b : Nat) : Nat := (a + 2 ^ 64 - b) % 2 ^ 64

/-- Unsigned 64-bit division as the BPF machine executes it: a zero divisor
gives 0 (C itself leaves that case undefined). -/
def u64_div (a b : Nat) : Nat := if b = 0 then 0 else a / b

/-! ## Data model -/

/-- The `struct flow_key` of `maps.h`: interface index and source hardware address. -/
structure flow_key where
  ifindex : Nat
  src_mac : List Nat
deriving DecidableEq, Repr

/-- The `struct handle_bps_delay` of `maps.h`: the policy record of a flow. -/
structure handle_bps_delay where
  tc_handle : Nat
  throttle_rate_bps : Nat
  delay_ms : Nat
deriving DecidableEq, Repr

/-- The fields of `struct __sk_buff` the programs use: wire length, interface
index, scheduled send time (0 = unset) and the packet bytes between `data`
and `data_end`. -/
structure sk_buff where
  len : Nat
  ifindex : Nat
  tstamp : Nat
  data : List Nat
deriving DecidableEq, Repr

/-- The two hash maps: `flow_map` (flow key to last timestamp used) and
`MAC_HANDLE_BPS_DELAY` (flow key to policy record). -/
structure Maps where
  flow_map : List (flow_key × Nat)
  MAC_HANDLE_BPS_DELAY : List (flow_key × handle_bps_delay)
deriving DecidableEq, Repr

/-- What one run of a program leaves behind. `ret` is the value returned when
the tail call falls through, `ecn_ce` tells whether `bpf_skb_ecn_set_ce` was
called, `tail_call` is the index handed to `bpf_tail_call`, if any. -/
structure Outcome where
  ret : Nat
  skb : sk_buff
  maps : Maps
  ecn_ce : Bool
  tail_call : Option Nat
deriving DecidableEq, Repr

/-! ## BPF hash map helpers -/

/-- Kernel helper `bpf_map_lookup_elem`: the value stored under `key`, if any. -/
def bpf_map_lookup_elem {β : Type} : List (flow_key × β) → flow_key → Option β
  | [], _ => none
  | (k, v) :: rest, key => if k = key then some v else bpf_map_lookup_elem rest key

/-- Overwrite the value stored under `key`, leaving every other entry in place. -/
def map_replace {β : Type} : List (flow_key × β) → flow_key → β → List (flow_key × β)
  | [], _, _ => []
  | (k, v) :: rest, key, value =>
    if k = key then (k, value) :: rest else (k, v) :: map_replace rest key value

/-- Kernel helper `bpf_map_update_elem` on a hash map of capacity `MAX_ENTRIES`.
`none` stands for a non-zero return value (the map is then untouched):
`BPF_NOEXIST` on a present key, `BPF_EXIST` on a missing key, or an insert
into a full map. -/
def bpf_map_update_elem {β : Type} (m : List (flow_key × β)) (key : flow_key) (value : β)
    (flags : Nat) : Option (List (flow_key × β)) :=
  match bpf_map_lookup_elem m key with
  | some _ => if flags = BPF_NOEXIST then none else some (map_replace m key value)
  | none =>
    if flags = BPF_EXIST then none
    else if m.length < MAX_ENTRIES then some (m ++ [(key, value)])
    else none

/-! ## Header parsing -/

/-- Modelled from the spec: `parse_ethhdr` of `helpers.h`, which is not part of
the sources at hand. It parses the link-layer header far enough to extract the
source hardware address and refuses any read beyond the packet boundary: an
Ethernet header is 14 octets (destination, source, type), the source address
is octets 6 to 11. `none` stands for the `TC_ACT_SHOT` signal. -/
def parse_ethhdr (data : List Nat) : Option (List Nat) :=
  if data.length < 2 * ETH_ALEN + 2 then none
  else some ((data.drop ETH_ALEN).take ETH_ALEN)

/-! ## Fixed-delay injector -/

/-- Local `delay_ns` of `inject_delay` (line 33): `(*delay_ms) * NS_PER_MS`
is a product of a `uint32_t` and an `int`, hence computed in 32 bits, and
only then widened to 64 bits. -/
def inject_delay_ns (delay_ms : Nat) : Nat := u32 (delay_ms * NS_PER_MS)

/-- Source lines 30-46: `inject_delay`. -/
def inject_delay (skb : sk_buff) (delay_ms : Nat) (now : Nat) (maps : Maps) : Outcome :=
  let delay_ns := inject_delay_ns delay_ms
  let ts := skb.tstamp
  let new_ts := u64 (skb.tstamp + delay_ns)
  if ts = 0 then
    ⟨TC_ACT_OK, { skb with tstamp := u64 (now + delay_ns) }, maps, false, none⟩
  else
    ⟨TC_ACT_OK, { skb with tstamp := new_ts }, maps, false, none⟩

/-- Source lines 52-95: `set_delay`. The test `!delay_ms` is on the address of
a field of a record that was found, which is never null; the address is
modelled as an `Option` that is always `some`. -/
def set_delay (skb : sk_buff) (now : Nat) (maps : Maps) : Outcome :=
  match parse_ethhdr skb.data with
  | none => ⟨TC_ACT_SHOT, skb, maps, false, none⟩
  | some h_source =>
    let key : flow_key := ⟨skb.ifindex, h_source⟩
    match bpf_map_lookup_elem maps.MAC_HANDLE_BPS_DELAY key with
    | none => ⟨TC_ACT_OK, skb, maps, false, none⟩
    | some val_struct =>
      let delay_ms : Option Nat := some val_struct.delay_ms
      match delay_ms with
      | none => ⟨TC_ACT_OK, skb, maps, false, none⟩
      | some d => inject_delay skb d now maps

/-! ## Flow pacing scheduler -/

/-- Local `delay_ns` of `throttle_flow` (line 113):
`((uint64_t)skb->len) * NS_PER_SEC / *throttle_rate_bps`. -/
def throttle_delay_ns (len : Nat) (throttle_rate_bps : Nat) : Nat :=
  u64_div (u64 (len * NS_PER_SEC)) throttle_rate_bps

/-- Local `next_tstamp` of `throttle_flow` (lines 116-120): 0 without flow
history, else the 64-bit sum `*last_tstamp + delay_ns`. -/
def throttle_next_tstamp (last_tstamp : Option Nat) (delay_ns : Nat) : Nat :=
  match last_tstamp with
  | some l => u64 (l + delay_ns)
  | none => 0

/-- Local `tstamp` of `throttle_flow` (lines 123-125): the packet's timestamp,
or the current time when that timestamp is in the past. -/
def throttle_tstamp (skb : sk_buff) (now : Nat) : Nat :=
  if skb.tstamp < now then now else skb.tstamp

/-- Source lines 112-160: the body of `throttle_flow` after the lookup of line
111, as a function of the lookup's result `last_tstamp` and of the maps the
two updates act on. -/
def throttle_flow_from (last_tstamp : Option Nat) (skb : sk_buff) (key : flow_key)
    (throttle_rate_bps : Nat) (now : Nat) (maps : Maps) : Outcome :=
  let delay_ns := throttle_delay_ns skb.len throttle_rate_bps
  let next_tstamp := throttle_next_tstamp last_tstamp delay_ns
  let tstamp := throttle_tstamp skb now
  if next_tstamp ≤ tstamp then
    match bpf_map_update_elem maps.flow_map key tstamp BPF_ANY with
    | none => ⟨TC_ACT_SHOT, skb, maps, false, none⟩
    | some fm => ⟨TC_ACT_OK, skb, { maps with flow_map := fm }, false, some 0⟩
  else if TIME_HORIZON_NS ≤ u64_sub next_tstamp now then
    ⟨TC_ACT_SHOT, skb, maps, false, none⟩
  else
    let ce : Bool := decide (ECN_HORIZON_NS ≤ u64_sub next_tstamp now)
    match bpf_map_update_elem maps.flow_map key next_tstamp BPF_EXIST with
    | none => ⟨TC_ACT_SHOT, skb, maps, ce, none⟩
    | some fm =>
      ⟨TC_ACT_OK, { skb with tstamp := next_tstamp }, { maps with flow_map := fm }, ce, some 0⟩

/-- Source lines 106-160: `throttle_flow`, the lookup of line 111 followed by
the rest of the body on the same maps. -/
def throttle_flow (skb : sk_buff) (key : flow_key) (throttle_rate_bps : Nat) (now : Nat)
    (maps : Maps) : Outcome :=
  throttle_flow_from (bpf_map_lookup_elem maps.flow_map key) skb key throttle_rate_bps now maps

/-- Source lines 162-203: `tc_main`. The test `!throttle_rate_bps` is on the
address of a field of a record that was found, which is never null; the
address is modelled as an `Option` that is always `some`. -/
def tc_main (skb : sk_buff) (now : Nat) (maps : Maps) : Outcome :=
  match parse_ethhdr skb.data with
  | none => ⟨TC_ACT_SHOT, skb, maps, false, none⟩
  | some h_source =>
    let key : flow_key := ⟨skb.ifindex, h_source⟩
    match bpf_map_lookup_elem maps.MAC_HANDLE_BPS_DELAY key with
    | none => ⟨TC_ACT_OK, skb, maps, false, none⟩
    | some val_struct =>
      let throttle_rate_bps : Option Nat := some val_struct.throttle_rate_bps
      match throttle_rate_bps with
      | none => ⟨TC_ACT_OK, skb, maps, false, none⟩
      | some rate => throttle_flow skb key rate now maps

/-! ## Sequences of calls -/

/-- One call of `throttle_flow`: the packet, its flow key, the rate read from
the policy record and the clock reading. -/
structure Call where
  skb : sk_buff
  key : flow_key
  rate : Nat
  now : Nat
deriving DecidableEq, Repr

/-- The maps after a sequence of `throttle_flow` calls, each one starting from
the maps its predecessor left. -/
def run_calls (maps : Maps) : List Call → Maps
  | [] => maps
  | c :: cs => run_calls (throttle_flow c.skb c.key c.rate c.now maps).maps cs

/-- The call has a positive rate and, if its flow has a stored state `L`, the
sum `L + delay_ns` of line 120 stays within 64 bits. -/
def call_fits (maps : Maps) (c : Call) : Bool :=
  decide (0 < c.rate) &&
    match bpf_map_lookup_elem maps.flow_map c.key with
    | none => true
    | some l => decide (l + throttle_delay_ns c.skb.len c.rate < 2 ^ 64)

/-- Every call of the sequence fits, each judged on the maps it starts from. -/
def calls_fit (maps : Maps) : List Call → Bool
  | [] => true
  | c :: cs => call_fits maps c && calls_fit (throttle_flow c.skb c.key c.rate c.now maps).maps cs

/-! ## Sample states -/

/-- The flow of interface 1 and source address `02:00:00:00:00:01`. -/
def sample_key : flow_key := ⟨1, [2, 0, 0, 0, 0, 1]⟩

/-- A 1500-octet packet of `sample_key` with unset timestamp, throttled to
1,000,000 bytes per second, seen at clock reading `now`. -/
def sample_call (now : Nat) : Call := ⟨⟨1500, 1, 0, []⟩, sample_key, 1000000, now⟩


/-- A state store filled to capacity: one entry for each interface index
below `MAX_ENTRIES`, all with an empty address. -/
def full_flow_map : List (flow_key × Nat) :=
  (List.range MAX_ENTRIES).map (fun i => ((⟨i, []⟩ : flow_key), 0))

/-! ## Facts about the hash map helpers -/

theorem lookup_eq_none_of_forall {β : Type} (m : List (flow_key × β)) (key : flow_key)
    (h : ∀ e ∈ m, e.1 ≠ key) : bpf_map_lookup_elem m key = none := by
  induction m with
  | nil => rfl
  | cons e rest ih =>
    obtain ⟨k, x⟩ := e
    have hk : ¬ k = key := h (k, x) (List.mem_cons_self _ _)
    simp only [bpf_map_lookup_elem, hk, if_false]
    exact ih (fun e he => h e (List.mem_cons_of_mem _ he))

theorem length_full_flow_map : full_flow_map.length = MAX_ENTRIES := by
  simp [full_flow_map]

theorem lookup_full_flow_map (key : flow_key) (h : key.src_mac ≠ []) :
    bpf_map_lookup_elem full_flow_map key = none := by
  apply lookup_eq_none_of_forall
  intro e he
  simp only [full_flow_map, List.mem_map] at he
  obtain ⟨i, _, rfl⟩ := he
  intro hk
  apply h
  rw [← hk]

theorem lookup_replace_self {β : Type} (m : List (flow_key × β)) (key : flow_key) (v w : β)
    (h : bpf_map_lookup_elem m key = some v) :
    bpf_map_lookup_elem (map_replace m key w) key = some w := by
  induction m with
  | nil => simp [bpf_map_lookup_elem] at h
  | cons e rest ih =>
    obtain ⟨k, x⟩ := e
    by_cases hk : k = key
    · simp [map_replace, bpf_map_lookup_elem, hk]
    · simp only [bpf_map_lookup_elem, hk, if_false] at h
      simp [map_replace, bpf_map_lookup_elem, hk, ih h]

theorem lookup_replace_other {β : Type} (m : List (flow_key × β)) (key other : flow_key) (w : β)
    (h : other ≠ key) :
    bpf_map_lookup_elem (map_replace m key w) other = bpf_map_lookup_elem m other := by
  induction m with
  | nil => simp [map_replace]
  | cons e rest ih =>
    obtain ⟨k, x⟩ := e
    by_cases hk : k = key
    · have hko : ¬ k = other := fun e => h (e.symm.trans hk)
      simp only [map_replace, hk, if_true, bpf_map_lookup_elem]
      rw [if_neg (fun e => h e.symm), if_neg (fun e => h e.symm)]
    · by_cases hko : k = other
      · subst hko
        simp only [map_replace, hk, if_false, bpf_map_lookup_elem, if_true]
      · simp only [map_replace, hk, if_false, bpf_map_lookup_elem, hko, ih]

theorem length_map_replace {β : Type} (m : List (flow_key × β)) (key : flow_key) (w : β) :
    (map_replace m key w).length = m.length := by
  induction m with
  | nil => simp [map_replace]
  | cons e rest ih =>
    obtain ⟨k, x⟩ := e
    by_cases hk : k = key
    · simp [map_replace, hk]
    · simp [map_replace, hk, ih]

theorem lookup_append_self {β : Type} (m : List (flow_key × β)) (key : flow_key) (w : β)
    (h : bpf_map_lookup_elem m key = none) :
    bpf_map_lookup_elem (m ++ [(key, w)]) key = some w := by
  induction m with
  | nil => simp [bpf_map_lookup_elem]
  | cons e rest ih =>
    obtain ⟨k, x⟩ := e
    by_cases hk : k = key
    · simp [bpf_map_lookup_elem, hk] at h
    · simp only [bpf_map_lookup_elem, hk, if_false] at h
      simp [bpf_map_lookup_elem, hk, ih h]

theorem lookup_append_other {β : Type} (m : List (flow_key × β)) (key other : flow_key) (w : β)
    (h : other ≠ key) :
    bpf_map_lookup_elem (m ++ [(key, w)]) other = bpf_map_lookup_elem m other := by
  induction m with
  | nil =>
    have hko : ¬ key = other := fun e => h e.symm
    simp [bpf_map_lookup_elem, hko]
  | cons e rest ih =>
    obtain ⟨k, x⟩ := e
    by_cases hko : k = other
    · simp [bpf_map_lookup_elem, hko]
    · simp [bpf_map_lookup_elem, hko, ih]

/-- An update-only write succeeds exactly on a present key, and replaces its value. -/
theorem update_exist_of_lookup {β : Type} (m : List (flow_key × β)) (key : flow_key) (v w : β)
    (h : bpf_map_lookup_elem m key = some v) :
    bpf_map_update_elem m key w BPF_EXIST = some (map_replace m key w) := by
  simp [bpf_map_update_elem, h, BPF_EXIST, BPF_NOEXIST]

theorem update_exist_of_missing {β : Type} (m : List (flow_key × β)) (key : flow_key) (w : β)
    (h : bpf_map_lookup_elem m key = none) :
    bpf_map_update_elem m key w BPF_EXIST = none := by
  simp [bpf_map_update_elem, h]

theorem update_any_of_lookup {β : Type} (m : List (flow_key × β)) (key : flow_key) (v w : β)
    (h : bpf_map_lookup_elem m key = some v) :
    bpf_map_update_elem m key w BPF_ANY = some (map_replace m key w) := by
  simp [bpf_map_update_elem, h, BPF_ANY, BPF_NOEXIST]

theorem update_any_of_missing {β : Type} (m : List (flow_key × β)) (key : flow_key) (w : β)
    (h : bpf_map_lookup_elem m key = none) :
    bpf_map_update_elem m key w BPF_ANY
      = if m.length < MAX_ENTRIES then some (m ++ [(key, w)]) else none := by
  simp [bpf_map_update_elem, h, BPF_ANY, BPF_EXIST]

/-- After a successful write the key holds the value written. -/
theorem lookup_update_self {β : Type} (m m' : List (flow_key × β)) (key : flow_key) (w : β)
    (flags : Nat) (h : bpf_map_update_elem m key w flags = some m') :
    bpf_map_lookup_elem m' key = some w := by
  unfold bpf_map_update_elem at h
  cases hl : bpf_map_lookup_elem m key with
  | none =>
    rw [hl] at h
    simp only at h
    split at h
    · exact absurd h (by simp)
    · split at h
      · cases h
        exact lookup_append_self m key w hl
      · exact absurd h (by simp)
  | some v =>
    rw [hl] at h
    simp only at h
    split at h
    · exact absurd h (by simp)
    · cases h
      exact lookup_replace_self m key v w hl

/-- A successful write leaves every other key as it was. -/
theorem lookup_update_other {β : Type} (m m' : List (flow_key × β)) (key other : flow_key)
    (w : β) (flags : Nat) (h : bpf_map_update_elem m key w flags = some m')
    (hne : other ≠ key) :
    bpf_map_lookup_elem m' other = bpf_map_lookup_elem m other := by
  unfold bpf_map_update_elem at h
  cases hl : bpf_map_lookup_elem m key with
  | none =>
    rw [hl] at h
    simp only at h
    split at h
    · exact absurd h (by simp)
    · split at h
      · cases h
        exact lookup_append_other m key other w hne
      · exact absurd h (by simp)
  | some v =>
    rw [hl] at h
    simp only at h
    split at h
    · exact absurd h (by simp)
    · cases h
      exact lookup_replace_other m key other w hne

/-- A successful write never takes the map beyond its capacity. -/
theorem length_update_le {β : Type} (m m' : List (flow_key × β)) (key : flow_key) (w : β)
    (flags : Nat) (h : bpf_map_update_elem m key w flags = some m')
    (hcap : m.length ≤ MAX_ENTRIES) : m'.length ≤ MAX_ENTRIES := by
  unfold bpf_map_update_elem at h
  cases hl : bpf_map_lookup_elem m key with
  | none =>
    rw [hl] at h
    simp only at h
    split at h
    · exact absurd h (by simp)
    · split at h
      · cases h
        simp only [List.length_append, List.length_singleton]
        omega
      · exact absurd h (by simp)
  | some v =>
    rw [hl] at h
    simp only at h
    split at h
    · exact absurd h (by simp)
    · cases h
      rw [length_map_replace]
      exact hcap

/-! ## Facts about the machine arithmetic -/

theorem u64_lt (n : Nat) : u64 n < 2 ^ 64 := Nat.mod_lt _ (by norm_num)

theorem u64_le_self (n : Nat) : u64 n ≤ n := Nat.mod_le _ _

theorem u64_of_lt (n : Nat) (h : n < 2 ^ 64) : u64 n = n := Nat.mod_eq_of_lt h

/-- The wrapping subtraction is the true difference when nothing wraps. -/
theorem u64_sub_of_le (a b : Nat) (hab : b ≤ a) (ha : a < 2 ^ 64) : u64_sub a b = a - b := by
  unfold u64_sub
  have h1 : a + 2 ^ 64 - b = (a - b) + 2 ^ 64 := by omega
  rw [h1, Nat.add_mod_right]
  exact Nat.mod_eq_of_lt (by omega)

theorem throttle_tstamp_eq_max (skb : sk_buff) (now : Nat) :
    throttle_tstamp skb now = max skb.tstamp now := by
  unfold throttle_tstamp
  split
  · rw [max_eq_right]; omega
  · rw [max_eq_left]; omega

theorem throttle_next_tstamp_lt (last : Option Nat) (d : Nat) :
    throttle_next_tstamp last d < 2 ^ 64 := by
  cases last with
  | none => simp [throttle_next_tstamp]
  | some l => exact u64_lt _

/-! ## The two regimes of the pacing scheduler -/

/-- When the flow's candidate slot is not ahead of the packet (line 128), the
scheduler writes the packet's baseline with `BPF_ANY` and touches nothing else. -/
theorem throttle_flow_due (skb : sk_buff) (key : flow_key) (rate now : Nat) (maps : Maps)
    (hle : throttle_next_tstamp (bpf_map_lookup_elem maps.flow_map key)
        (throttle_delay_ns skb.len rate) ≤ max skb.tstamp now) :
    throttle_flow skb key rate now maps =
      match bpf_map_update_elem maps.flow_map key (max skb.tstamp now) BPF_ANY with
      | none => ⟨TC_ACT_SHOT, skb, maps, false, none⟩
      | some fm => ⟨TC_ACT_OK, skb, { maps with flow_map := fm }, false, some 0⟩ := by
  unfold throttle_flow throttle_flow_from
  simp only [throttle_tstamp_eq_max]
  rw [if_pos hle]

/-- When the flow's candidate slot is ahead of the packet, the flow has an
entry, the differences of lines 139 and 143 do not wrap, and the scheduler
either drops at the horizon or moves both the entry and the packet to the slot. -/
theorem throttle_flow_ahead (skb : sk_buff) (key : flow_key) (rate now : Nat) (maps : Maps)
    (hgt : max skb.tstamp now < throttle_next_tstamp (bpf_map_lookup_elem maps.flow_map key)
        (throttle_delay_ns skb.len rate)) :
    throttle_flow skb key rate now maps =
      (let next := throttle_next_tstamp (bpf_map_lookup_elem maps.flow_map key)
          (throttle_delay_ns skb.len rate)
       if TIME_HORIZON_NS ≤ next - now then ⟨TC_ACT_SHOT, skb, maps, false, none⟩
       else ⟨TC_ACT_OK, { skb with tstamp := next },
            { maps with flow_map := map_replace maps.flow_map key next },
            decide (ECN_HORIZON_NS ≤ next - now), some 0⟩) := by
  have hlt := throttle_next_tstamp_lt (bpf_map_lookup_elem maps.flow_map key)
    (throttle_delay_ns skb.len rate)
  have hnow : now ≤ throttle_next_tstamp (bpf_map_lookup_elem maps.flow_map key)
      (throttle_delay_ns skb.len rate) :=
    le_trans (le_max_right _ _) (le_of_lt hgt)
  have hsub := u64_sub_of_le _ _ hnow hlt
  cases hl : bpf_map_lookup_elem maps.flow_map key with
  | none =>
    rw [hl] at hgt
    simp [throttle_next_tstamp] at hgt
  | some L =>
    rw [hl] at hsub hgt
    unfold throttle_flow throttle_flow_from
    simp only [throttle_tstamp_eq_max, hl, hsub]
    rw [if_neg (not_le.mpr hgt)]
    rw [update_exist_of_lookup _ _ L _ hl]

/-! ## Pacing scheduler: settled properties -/

/-- C1. Normal pacing case of `throttle_flow`: when the flow's stored state is
`L`, the rate is positive, and the slot `nextTs = L + len * 1,000,000,000 / rate`
(the 64-bit sum the code forms) is later than `max(ts, now)` and less than
2,000,000,000 ns after `now`, the call stores `nextTs` as the flow's state,
sets the packet's timestamp to `nextTs` (no other packet field changes), hands
off to stage 0 and returns the forward verdict. -/
theorem throttle_flow_normal_pacing (skb : sk_buff) (key : flow_key) (rate now L : Nat)
    (maps : Maps)
    (hL : bpf_map_lookup_elem maps.flow_map key = some L)
    (hrate : 0 < rate)
    (hlen : skb.len < 2 ^ 32)
    (hgt : max skb.tstamp now < (L + skb.len * 1000000000 / rate) % 2 ^ 64)
    (hhz : (L + skb.len * 1000000000 / rate) % 2 ^ 64 - now < 2000000000) :
    bpf_map_lookup_elem (throttle_flow skb key rate now maps).maps.flow_map key
        = some ((L + skb.len * 1000000000 / rate) % 2 ^ 64)
      ∧ (throttle_flow skb key rate now maps).skb
        = { skb with tstamp := (L + skb.len * 1000000000 / rate) % 2 ^ 64 }
      ∧ (throttle_flow skb key rate now maps).tail_call = some 0
      ∧ (throttle_flow skb key rate now maps).ret = TC_ACT_OK := by
  have hd : throttle_delay_ns skb.len rate = skb.len * 1000000000 / rate := by
    unfold throttle_delay_ns u64_div u64 NS_PER_SEC
    rw [if_neg (by omega), Nat.mod_eq_of_lt (by omega)]
  have hn : throttle_next_tstamp (bpf_map_lookup_elem maps.flow_map key)
      (throttle_delay_ns skb.len rate) = (L + skb.len * 1000000000 / rate) % 2 ^ 64 := by
    rw [hL, hd]; rfl
  have hout := throttle_flow_ahead skb key rate now maps (by rw [hn]; exact hgt)
  rw [hn] at hout
  simp only [TIME_HORIZON_NS] at hout
  rw [if_neg (by omega)] at hout
  rw [hout]
  exact ⟨lookup_replace_self _ _ L _ hL, rfl, rfl, rfl⟩

/-- Witness of C1: `L = T = 10^12`, `len = 1500`, `rate = 1,000,000`,
`now = T + 100`, `ts = 0`: state and packet timestamp become `T + 1,500,000`,
and the packet is not congestion-marked. -/
theorem throttle_flow_normal_pacing_witness :
    (bpf_map_lookup_elem
        (throttle_flow ⟨1500, 1, 0, []⟩ ⟨1, [2, 0, 0, 0, 0, 1]⟩ 1000000 1000000000100
          ⟨[(⟨1, [2, 0, 0, 0, 0, 1]⟩, 1000000000000)], []⟩).maps.flow_map
        ⟨1, [2, 0, 0, 0, 0, 1]⟩
        = some ((1000000000000 + 1500 * 1000000000 / 1000000) % 2 ^ 64)
      ∧ (throttle_flow ⟨1500, 1, 0, []⟩ ⟨1, [2, 0, 0, 0, 0, 1]⟩ 1000000 1000000000100
          ⟨[(⟨1, [2, 0, 0, 0, 0, 1]⟩, 1000000000000)], []⟩).skb
        = ⟨1500, 1, (1000000000000 + 1500 * 1000000000 / 1000000) % 2 ^ 64, []⟩
      ∧ (throttle_flow ⟨1500, 1, 0, []⟩ ⟨1, [2, 0, 0, 0, 0, 1]⟩ 1000000 1000000000100
          ⟨[(⟨1, [2, 0, 0, 0, 0, 1]⟩, 1000000000000)], []⟩).tail_call = some 0
      ∧ (throttle_flow ⟨1500, 1, 0, []⟩ ⟨1, [2, 0, 0, 0, 0, 1]⟩ 1000000 1000000000100
          ⟨[(⟨1, [2, 0, 0, 0, 0, 1]⟩, 1000000000000)], []⟩).ret = TC_ACT_OK)
    ∧ (1000000000000 + 1500 * 1000000000 / 1000000) % 2 ^ 64 = 1000001500000
    ∧ (throttle_flow ⟨1500, 1, 0, []⟩ ⟨1, [2, 0, 0, 0, 0, 1]⟩ 1000000 1000000000100
          ⟨[(⟨1, [2, 0, 0, 0, 0, 1]⟩, 1000000000000)], []⟩).ecn_ce = false :=
  ⟨throttle_flow_normal_pacing ⟨1500, 1, 0, []⟩ ⟨1, [2, 0, 0, 0, 0, 1]⟩ 1000000 1000000000100
      1000000000000 ⟨[(⟨1, [2, 0, 0, 0, 0, 1]⟩, 1000000000000)], []⟩
      (by decide) (by decide) (by norm_num) (by norm_num) (by norm_num),
    by norm_num, by decide⟩

/-- C2. Idle-flow case of `throttle_flow`: with `baseline = max(ts, now)`, when
the flow has no stored state, or its stored state `L` satisfies
`L + delay_ns <= baseline` (equality included), and the `BPF_ANY` write
succeeds, the flow's state becomes exactly `baseline`, the packet is left
unchanged (timestamp included), it is not congestion-marked, and the call
hands off to stage 0 with the forward verdict. -/
theorem throttle_flow_idle (skb : sk_buff) (key : flow_key) (rate now : Nat) (maps : Maps)
    (hidle : bpf_map_lookup_elem maps.flow_map key = none
      ∨ ∃ L, bpf_map_lookup_elem maps.flow_map key = some L
          ∧ L + throttle_delay_ns skb.len rate ≤ max skb.tstamp now)
    (hwrite : bpf_map_update_elem maps.flow_map key (max skb.tstamp now) BPF_ANY ≠ none) :
    bpf_map_lookup_elem (throttle_flow skb key rate now maps).maps.flow_map key
        = some (max skb.tstamp now)
      ∧ (throttle_flow skb key rate now maps).skb = skb
      ∧ (throttle_flow skb key rate now maps).ecn_ce = false
      ∧ (throttle_flow skb key rate now maps).tail_call = some 0
      ∧ (throttle_flow skb key rate now maps).ret = TC_ACT_OK := by
  have hle : throttle_next_tstamp (bpf_map_lookup_elem maps.flow_map key)
      (throttle_delay_ns skb.len rate) ≤ max skb.tstamp now := by
    rcases hidle with h | ⟨L, h, hL⟩
    · rw [h]; simp [throttle_next_tstamp]
    · rw [h]; exact le_trans (u64_le_self _) hL
  rw [throttle_flow_due skb key rate now maps hle]
  cases hu : bpf_map_update_elem maps.flow_map key (max skb.tstamp now) BPF_ANY with
  | none => exact absurd hu hwrite
  | some fm => exact ⟨lookup_update_self _ _ _ _ _ hu, rfl, rfl, rfl, rfl⟩

/-- Witness of C2: no prior state, `len = 1500`, `rate = 1,000,000`,
`now = T = 10^12`, `ts = 0`: the state becomes `T`. -/
theorem throttle_flow_idle_witness :
    bpf_map_lookup_elem
        (throttle_flow ⟨1500, 1, 0, []⟩ ⟨1, [2, 0, 0, 0, 0, 1]⟩ 1000000 1000000000000
          ⟨[], []⟩).maps.flow_map ⟨1, [2, 0, 0, 0, 0, 1]⟩ = some (max 0 1000000000000)
      ∧ (throttle_flow ⟨1500, 1, 0, []⟩ ⟨1, [2, 0, 0, 0, 0, 1]⟩ 1000000 1000000000000
          ⟨[], []⟩).skb = ⟨1500, 1, 0, []⟩
      ∧ (throttle_flow ⟨1500, 1, 0, []⟩ ⟨1, [2, 0, 0, 0, 0, 1]⟩ 1000000 1000000000000
          ⟨[], []⟩).ecn_ce = false
      ∧ (throttle_flow ⟨1500, 1, 0, []⟩ ⟨1, [2, 0, 0, 0, 0, 1]⟩ 1000000 1000000000000
          ⟨[], []⟩).tail_call = some 0
      ∧ (throttle_flow ⟨1500, 1, 0, []⟩ ⟨1, [2, 0, 0, 0, 0, 1]⟩ 1000000 1000000000000
          ⟨[], []⟩).ret = TC_ACT_OK :=
  throttle_flow_idle ⟨1500, 1, 0, []⟩ ⟨1, [2, 0, 0, 0, 0, 1]⟩ 1000000 1000000000000 ⟨[], []⟩
    (Or.inl rfl) (by decide)

/-- C3. Horizon drop of `throttle_flow`: for a packet that is not in the idle
case (`next_tstamp > max(ts, now)`), the verdict is DROP if and only if
`next_tstamp - now >= 2,000,000,000`; when it is dropped for this reason the
maps and the packet (timestamp included) are exactly what they were, and below
that horizon the verdict is forward. -/
theorem throttle_flow_horizon_drop (skb : sk_buff) (key : flow_key) (rate now : Nat)
    (maps : Maps)
    (hnotidle : max skb.tstamp now < throttle_next_tstamp
        (bpf_map_lookup_elem maps.flow_map key) (throttle_delay_ns skb.len rate)) :
    ((throttle_flow skb key rate now maps).ret = TC_ACT_SHOT
        ↔ 2000000000 ≤ throttle_next_tstamp (bpf_map_lookup_elem maps.flow_map key)
            (throttle_delay_ns skb.len rate) - now)
      ∧ (2000000000 ≤ throttle_next_tstamp (bpf_map_lookup_elem maps.flow_map key)
            (throttle_delay_ns skb.len rate) - now →
          (throttle_flow skb key rate now maps).maps = maps
            ∧ (throttle_flow skb key rate now maps).skb = skb)
      ∧ (throttle_next_tstamp (bpf_map_lookup_elem maps.flow_map key)
            (throttle_delay_ns skb.len rate) - now < 2000000000 →
          (throttle_flow skb key rate now maps).ret = TC_ACT_OK) := by
  rw [throttle_flow_ahead skb key rate now maps hnotidle]
  simp only [TIME_HORIZON_NS]
  by_cases h : 2000000000 ≤ throttle_next_tstamp (bpf_map_lookup_elem maps.flow_map key)
      (throttle_delay_ns skb.len rate) - now
  · rw [if_pos (by omega)]
    exact ⟨⟨fun _ => h, fun _ => rfl⟩, fun _ => ⟨rfl, rfl⟩, fun h2 => by omega⟩
  · rw [if_neg (by omega)]
    refine ⟨⟨fun hret => ?_, fun h2 => absurd h2 h⟩, fun h2 => absurd h2 h, fun _ => rfl⟩
    simp [TC_ACT_OK, TC_ACT_SHOT] at hret

/-- Witness of C3, at both sides of the boundary (`len = 1500`,
`rate = 1,000,000`, `now = 0`, `ts = 0`): a slot exactly 2,000,000,000 ns
ahead is dropped with maps and packet untouched, a slot 1,999,999,999 ns
ahead is forwarded. -/
theorem throttle_flow_horizon_drop_witness :
    ((throttle_flow ⟨1500, 1, 0, []⟩ ⟨1, [2, 0, 0, 0, 0, 1]⟩ 1000000 0
          ⟨[(⟨1, [2, 0, 0, 0, 0, 1]⟩, 1998500000)], []⟩).ret = TC_ACT_SHOT
      ∧ (throttle_flow ⟨1500, 1, 0, []⟩ ⟨1, [2, 0, 0, 0, 0, 1]⟩ 1000000 0
          ⟨[(⟨1, [2, 0, 0, 0, 0, 1]⟩, 1998500000)], []⟩).maps
            = ⟨[(⟨1, [2, 0, 0, 0, 0, 1]⟩, 1998500000)], []⟩
      ∧ (throttle_flow ⟨1500, 1, 0, []⟩ ⟨1, [2, 0, 0, 0, 0, 1]⟩ 1000000 0
          ⟨[(⟨1, [2, 0, 0, 0, 0, 1]⟩, 1998500000)], []⟩).skb = ⟨1500, 1, 0, []⟩)
    ∧ (throttle_flow ⟨1500, 1, 0, []⟩ ⟨1, [2, 0, 0, 0, 0, 1]⟩ 1000000 0
          ⟨[(⟨1, [2, 0, 0, 0, 0, 1]⟩, 1998499999)], []⟩).ret = TC_ACT_OK := by
  have hat := throttle_flow_horizon_drop ⟨1500, 1, 0, []⟩ ⟨1, [2, 0, 0, 0, 0, 1]⟩ 1000000 0
    ⟨[(⟨1, [2, 0, 0, 0, 0, 1]⟩, 1998500000)], []⟩ (by decide)
  have hbelow := throttle_flow_horizon_drop ⟨1500, 1, 0, []⟩ ⟨1, [2, 0, 0, 0, 0, 1]⟩ 1000000 0
    ⟨[(⟨1, [2, 0, 0, 0, 0, 1]⟩, 1998499999)], []⟩ (by decide)
  have h2 : (2000000000 : Nat) ≤ throttle_next_tstamp
      (bpf_map_lookup_elem [((⟨1, [2, 0, 0, 0, 0, 1]⟩ : flow_key), 1998500000)]
        ⟨1, [2, 0, 0, 0, 0, 1]⟩) (throttle_delay_ns 1500 1000000) - 0 := by decide
  have h1 : throttle_next_tstamp
      (bpf_map_lookup_elem [((⟨1, [2, 0, 0, 0, 0, 1]⟩ : flow_key), 1998499999)]
        ⟨1, [2, 0, 0, 0, 0, 1]⟩) (throttle_delay_ns 1500 1000000) - 0 < 2000000000 := by decide
  exact ⟨⟨hat.1.mpr h2, (hat.2.1 h2).1, (hat.2.1 h2).2⟩, hbelow.2.2 h1⟩

/-- C4. Congestion-mark boundary of `throttle_flow`: for a packet that is
neither in the idle case nor horizon-dropped, `bpf_skb_ecn_set_ce` is called
if and only if `next_tstamp - now >= 500,000,000`, and marked or not the flow's
state and the packet's timestamp both become `next_tstamp` and the verdict is
forward with hand-off to stage 0. -/
theorem throttle_flow_ecn_mark (skb : sk_buff) (key : flow_key) (rate now : Nat)
    (maps : Maps)
    (hnotidle : max skb.tstamp now < throttle_next_tstamp
        (bpf_map_lookup_elem maps.flow_map key) (throttle_delay_ns skb.len rate))
    (hnodrop : throttle_next_tstamp (bpf_map_lookup_elem maps.flow_map key)
        (throttle_delay_ns skb.len rate) - now < 2000000000) :
    ((throttle_flow skb key rate now maps).ecn_ce = true
        ↔ 500000000 ≤ throttle_next_tstamp (bpf_map_lookup_elem maps.flow_map key)
            (throttle_delay_ns skb.len rate) - now)
      ∧ bpf_map_lookup_elem (throttle_flow skb key rate now maps).maps.flow_map key
          = some (throttle_next_tstamp (bpf_map_lookup_elem maps.flow_map key)
              (throttle_delay_ns skb.len rate))
      ∧ (throttle_flow skb key rate now maps).skb.tstamp
          = throttle_next_tstamp (bpf_map_lookup_elem maps.flow_map key)
              (throttle_delay_ns skb.len rate)
      ∧ (throttle_flow skb key rate now maps).ret = TC_ACT_OK
      ∧ (throttle_flow skb key rate now maps).tail_call = some 0 := by
  rw [throttle_flow_ahead skb key rate now maps hnotidle]
  simp only [TIME_HORIZON_NS]
  rw [if_neg (by omega)]
  refine ⟨by simp [ECN_HORIZON_NS], ?_, rfl, rfl, rfl⟩
  cases hl : bpf_map_lookup_elem maps.flow_map key with
  | none =>
    rw [hl] at hnotidle
    simp [throttle_next_tstamp] at hnotidle
  | some L => exact lookup_replace_self _ _ L _ hl

/-- Witness of C4, at both sides of the boundary (`len = 1500`,
`rate = 1,000,000`, `now = 0`, `ts = 0`): a slot exactly 500,000,000 ns ahead
is marked, a slot 499,999,999 ns ahead is not, and both are scheduled. -/
theorem throttle_flow_ecn_mark_witness :
    ((throttle_flow ⟨1500, 1, 0, []⟩ ⟨1, [2, 0, 0, 0, 0, 1]⟩ 1000000 0
          ⟨[(⟨1, [2, 0, 0, 0, 0, 1]⟩, 498500000)], []⟩).ecn_ce = true
      ∧ (throttle_flow ⟨1500, 1, 0, []⟩ ⟨1, [2, 0, 0, 0, 0, 1]⟩ 1000000 0
          ⟨[(⟨1, [2, 0, 0, 0, 0, 1]⟩, 498500000)], []⟩).skb.tstamp = 500000000
      ∧ (throttle_flow ⟨1500, 1, 0, []⟩ ⟨1, [2, 0, 0, 0, 0, 1]⟩ 1000000 0
          ⟨[(⟨1, [2, 0, 0, 0, 0, 1]⟩, 498500000)], []⟩).ret = TC_ACT_OK)
    ∧ (¬ (throttle_flow ⟨1500, 1, 0, []⟩ ⟨1, [2, 0, 0, 0, 0, 1]⟩ 1000000 0
          ⟨[(⟨1, [2, 0, 0, 0, 0, 1]⟩, 498499999)], []⟩).ecn_ce = true
      ∧ (throttle_flow ⟨1500, 1, 0, []⟩ ⟨1, [2, 0, 0, 0, 0, 1]⟩ 1000000 0
          ⟨[(⟨1, [2, 0, 0, 0, 0, 1]⟩, 498499999)], []⟩).skb.tstamp = 499999999
      ∧ (throttle_flow ⟨1500, 1, 0, []⟩ ⟨1, [2, 0, 0, 0, 0, 1]⟩ 1000000 0
          ⟨[(⟨1, [2, 0, 0, 0, 0, 1]⟩, 498499999)], []⟩).ret = TC_ACT_OK) := by
  have hat := throttle_flow_ecn_mark ⟨1500, 1, 0, []⟩ ⟨1, [2, 0, 0, 0, 0, 1]⟩ 1000000 0
    ⟨[(⟨1, [2, 0, 0, 0, 0, 1]⟩, 498500000)], []⟩ (by decide) (by decide)
  have hbelow := throttle_flow_ecn_mark ⟨1500, 1, 0, []⟩ ⟨1, [2, 0, 0, 0, 0, 1]⟩ 1000000 0
    ⟨[(⟨1, [2, 0, 0, 0, 0, 1]⟩, 498499999)], []⟩ (by decide) (by decide)
  have h2 : (500000000 : Nat) ≤ throttle_next_tstamp
      (bpf_map_lookup_elem [((⟨1, [2, 0, 0, 0, 0, 1]⟩ : flow_key), 498500000)]
        ⟨1, [2, 0, 0, 0, 0, 1]⟩) (throttle_delay_ns 1500 1000000) - 0 := by decide
  have h1 : ¬ (500000000 : Nat) ≤ throttle_next_tstamp
      (bpf_map_lookup_elem [((⟨1, [2, 0, 0, 0, 0, 1]⟩ : flow_key), 498499999)]
        ⟨1, [2, 0, 0, 0, 0, 1]⟩) (throttle_delay_ns 1500 1000000) - 0 := by decide
  exact ⟨⟨hat.1.mpr h2, hat.2.2.1, hat.2.2.2.1⟩,
    ⟨fun hce => h1 (hbelow.1.mp hce), hbelow.2.2.1, hbelow.2.2.2.1⟩⟩

/-! ## Policy dispatch -/

/-- C5. Pass-through: for a well-formed packet (the Ethernet header parses)
whose flow key (ifindex, source MAC) has no entry in the policy table, both
`tc_main` and `set_delay` return the forward verdict, leave the packet as it
was (timestamp included), do not congestion-mark it, make no tail call and
leave both maps, the per-flow state store included, unchanged. -/
theorem no_policy_pass_through (skb : sk_buff) (now : Nat) (maps : Maps) (h_source : List Nat)
    (hwf : parse_ethhdr skb.data = some h_source)
    (hnone : bpf_map_lookup_elem maps.MAC_HANDLE_BPS_DELAY ⟨skb.ifindex, h_source⟩ = none) :
    tc_main skb now maps = ⟨TC_ACT_OK, skb, maps, false, none⟩
      ∧ set_delay skb now maps = ⟨TC_ACT_OK, skb, maps, false, none⟩ := by
  constructor
  · unfold tc_main
    rw [hwf]
    simp only [hnone]
  · unfold set_delay
    rw [hwf]
    simp only [hnone]

/-- Witness of C5: a 14-octet frame from `02:00:00:00:00:01` on interface 1,
a policy table that only knows interface 7, and a non-empty state store. -/
theorem no_policy_pass_through_witness :
    tc_main ⟨1500, 1, 77, [0, 0, 0, 0, 0, 9, 2, 0, 0, 0, 0, 1, 8, 0]⟩ 1000
        ⟨[(⟨1, [2, 0, 0, 0, 0, 1]⟩, 5)], [(⟨7, [2, 0, 0, 0, 0, 1]⟩, ⟨1, 1000000, 10⟩)]⟩
      = ⟨TC_ACT_OK, ⟨1500, 1, 77, [0, 0, 0, 0, 0, 9, 2, 0, 0, 0, 0, 1, 8, 0]⟩,
        ⟨[(⟨1, [2, 0, 0, 0, 0, 1]⟩, 5)], [(⟨7, [2, 0, 0, 0, 0, 1]⟩, ⟨1, 1000000, 10⟩)]⟩,
        false, none⟩
    ∧ set_delay ⟨1500, 1, 77, [0, 0, 0, 0, 0, 9, 2, 0, 0, 0, 0, 1, 8, 0]⟩ 1000
        ⟨[(⟨1, [2, 0, 0, 0, 0, 1]⟩, 5)], [(⟨7, [2, 0, 0, 0, 0, 1]⟩, ⟨1, 1000000, 10⟩)]⟩
      = ⟨TC_ACT_OK, ⟨1500, 1, 77, [0, 0, 0, 0, 0, 9, 2, 0, 0, 0, 0, 1, 8, 0]⟩,
        ⟨[(⟨1, [2, 0, 0, 0, 0, 1]⟩, 5)], [(⟨7, [2, 0, 0, 0, 0, 1]⟩, ⟨1, 1000000, 10⟩)]⟩,
        false, none⟩ :=
  no_policy_pass_through ⟨1500, 1, 77, [0, 0, 0, 0, 0, 9, 2, 0, 0, 0, 0, 1, 8, 0]⟩ 1000
    ⟨[(⟨1, [2, 0, 0, 0, 0, 1]⟩, 5)], [(⟨7, [2, 0, 0, 0, 0, 1]⟩, ⟨1, 1000000, 10⟩)]⟩
    [2, 0, 0, 0, 0, 1] (by decide) (by decide)

/-! ## Failed state writes -/

/-- C6. State-write failure is a hard drop. Whatever the lookup of line 111
returned (`last_tstamp`), if the write the call attempts fails, that is, an
insert (`BPF_ANY`, idle case) of a key the store does not hold into a store of
`MAX_ENTRIES` = 65535 entries or more, or an update-only write (`BPF_EXIST`,
paced case) to a key the store does not hold, then the verdict is DROP, the
packet (timestamp included) is not rewritten, no hand-off takes place, and the
maps are exactly what they were, so the store is still within its capacity. -/
theorem throttle_flow_write_failure (last_tstamp : Option Nat) (skb : sk_buff)
    (key : flow_key) (rate now : Nat) (maps : Maps)
    (hfail :
      (throttle_next_tstamp last_tstamp (throttle_delay_ns skb.len rate) ≤ max skb.tstamp now
        ∧ bpf_map_lookup_elem maps.flow_map key = none
        ∧ MAX_ENTRIES ≤ maps.flow_map.length)
      ∨ (max skb.tstamp now < throttle_next_tstamp last_tstamp (throttle_delay_ns skb.len rate)
        ∧ throttle_next_tstamp last_tstamp (throttle_delay_ns skb.len rate) - now < 2000000000
        ∧ bpf_map_lookup_elem maps.flow_map key = none)) :
    (throttle_flow_from last_tstamp skb key rate now maps).ret = TC_ACT_SHOT
      ∧ (throttle_flow_from last_tstamp skb key rate now maps).skb = skb
      ∧ (throttle_flow_from last_tstamp skb key rate now maps).maps = maps
      ∧ (throttle_flow_from last_tstamp skb key rate now maps).tail_call = none
      ∧ (maps.flow_map.length ≤ MAX_ENTRIES →
          (throttle_flow_from last_tstamp skb key rate now maps).maps.flow_map.length
            ≤ MAX_ENTRIES) := by
  rcases hfail with ⟨hle, hmiss, hfull⟩ | ⟨hgt, hhz, hmiss⟩
  · unfold throttle_flow_from
    simp only [throttle_tstamp_eq_max]
    rw [if_pos hle, update_any_of_missing _ _ _ hmiss, if_neg (by omega)]
    exact ⟨rfl, rfl, rfl, rfl, fun h => h⟩
  · have hlt := throttle_next_tstamp_lt last_tstamp (throttle_delay_ns skb.len rate)
    have hnow : now ≤ throttle_next_tstamp last_tstamp (throttle_delay_ns skb.len rate) :=
      le_trans (le_max_right _ _) (le_of_lt hgt)
    have hsub := u64_sub_of_le _ _ hnow hlt
    unfold throttle_flow_from
    simp only [throttle_tstamp_eq_max, hsub, TIME_HORIZON_NS]
    rw [if_neg (not_le.mpr hgt), if_neg (by omega), update_exist_of_missing _ _ _ hmiss]
    exact ⟨rfl, rfl, rfl, rfl, fun h => h⟩

/-- Witness of C6, for both kinds of failure: an insert for a new flow into
the store `full_flow_map` of 65535 entries, and an update-only write after the
entry read at line 111 is no longer in the store. -/
theorem throttle_flow_write_failure_witness :
    ((throttle_flow_from none ⟨1500, 1, 0, []⟩ ⟨1, [2, 0, 0, 0, 0, 1]⟩ 1000000 1000
          ⟨full_flow_map, []⟩).ret = TC_ACT_SHOT
      ∧ (throttle_flow_from none ⟨1500, 1, 0, []⟩ ⟨1, [2, 0, 0, 0, 0, 1]⟩ 1000000 1000
          ⟨full_flow_map, []⟩).maps = ⟨full_flow_map, []⟩)
    ∧ ((throttle_flow_from (some 1000000000000) ⟨1500, 1, 0, []⟩ ⟨1, [2, 0, 0, 0, 0, 1]⟩
          1000000 1000000000100 ⟨[], []⟩).ret = TC_ACT_SHOT
      ∧ (throttle_flow_from (some 1000000000000) ⟨1500, 1, 0, []⟩ ⟨1, [2, 0, 0, 0, 0, 1]⟩
          1000000 1000000000100 ⟨[], []⟩).skb = ⟨1500, 1, 0, []⟩) := by
  have hmiss : bpf_map_lookup_elem full_flow_map ⟨1, [2, 0, 0, 0, 0, 1]⟩ = none :=
    lookup_full_flow_map ⟨1, [2, 0, 0, 0, 0, 1]⟩ (by decide)
  have hcap : MAX_ENTRIES ≤ full_flow_map.length := le_of_eq length_full_flow_map.symm
  have hany : ∀ m : List (flow_key × Nat),
      bpf_map_lookup_elem m ⟨1, [2, 0, 0, 0, 0, 1]⟩ = none → MAX_ENTRIES ≤ m.length →
      (throttle_flow_from none ⟨1500, 1, 0, []⟩ ⟨1, [2, 0, 0, 0, 0, 1]⟩ 1000000 1000
          ⟨m, []⟩).ret = TC_ACT_SHOT
      ∧ (throttle_flow_from none ⟨1500, 1, 0, []⟩ ⟨1, [2, 0, 0, 0, 0, 1]⟩ 1000000 1000
          ⟨m, []⟩).maps = ⟨m, []⟩ := fun m h1 h2 =>
    have h := throttle_flow_write_failure none ⟨1500, 1, 0, []⟩ ⟨1, [2, 0, 0, 0, 0, 1]⟩
      1000000 1000 ⟨m, []⟩ (Or.inl ⟨by decide, h1, h2⟩)
    ⟨h.1, h.2.2.1⟩
  have hfull := hany full_flow_map hmiss hcap
  have hgone := throttle_flow_write_failure (some 1000000000000) ⟨1500, 1, 0, []⟩
    ⟨1, [2, 0, 0, 0, 0, 1]⟩ 1000000 1000000000100 ⟨[], []⟩
    (Or.inr ⟨by decide, by decide, rfl⟩)
  exact ⟨hfull, ⟨hgone.1, hgone.2.1⟩⟩

/-- C7, evaluated where it fails: a well-formed packet whose policy entry has
`throttle_rate_bps = 0` and whose flow has no state yet. The test of line 199
is on an address and never fires, so `throttle_flow` runs with the zero rate:
the state store is written (`now = 1000` is recorded for the flow) and the
packet is handed to stage 0. -/
theorem tc_main_zero_rate_writes_state :
    tc_main ⟨1500, 1, 0, [0, 0, 0, 0, 0, 9, 2, 0, 0, 0, 0, 1, 8, 0]⟩ 1000
        ⟨[], [(⟨1, [2, 0, 0, 0, 0, 1]⟩, ⟨1, 0, 0⟩)]⟩
      = ⟨TC_ACT_OK, ⟨1500, 1, 0, [0, 0, 0, 0, 0, 9, 2, 0, 0, 0, 0, 1, 8, 0]⟩,
        ⟨[(⟨1, [2, 0, 0, 0, 0, 1]⟩, 1000)], [(⟨1, [2, 0, 0, 0, 0, 1]⟩, ⟨1, 0, 0⟩)]⟩,
        false, some 0⟩ := by
  decide

/-! ## Fixed-delay injector: settled properties -/

/-- C8, evaluated where it fails: with `delay_ms = 4295`, an unset timestamp
and `now = 1000`, the product of line 33 wraps in 32 bits to 32,704 and the
packet is scheduled at 33,704 instead of 1000 + 4,295,000,000. -/
theorem inject_delay_unset_wraps :
    (inject_delay ⟨1500, 1, 0, []⟩ 4295 1000 ⟨[], []⟩).skb.tstamp = 33704
      ∧ 33704 ≠ 1000 + 4295 * 1000000 := by
  decide

/-- C9, evaluated where it fails: with `delay_ms = 4295` and an existing
timestamp `t0 = 1`, the product of line 33 wraps in 32 bits to 32,704 and the
new timestamp is 32,705 instead of 1 + 4,295,000,000. -/
theorem inject_delay_additive_wraps :
    (inject_delay ⟨1500, 1, 1, []⟩ 4295 1000 ⟨[], []⟩).skb.tstamp = 32705
      ∧ 32705 ≠ 1 + 4295 * 1000000 := by
  decide

/-! ## Monotone flow state -/

/-- A call of `throttle_flow` changes no entry of the state store but that of its own key. -/
theorem throttle_flow_other_key (skb : sk_buff) (key other : flow_key) (rate now : Nat)
    (maps : Maps) (hne : other ≠ key) :
    bpf_map_lookup_elem (throttle_flow skb key rate now maps).maps.flow_map other
      = bpf_map_lookup_elem maps.flow_map other := by
  by_cases hle : throttle_next_tstamp (bpf_map_lookup_elem maps.flow_map key)
      (throttle_delay_ns skb.len rate) ≤ max skb.tstamp now
  · rw [throttle_flow_due skb key rate now maps hle]
    cases hu : bpf_map_update_elem maps.flow_map key (max skb.tstamp now) BPF_ANY with
    | none => rfl
    | some fm => exact lookup_update_other _ _ _ _ _ _ hu hne
  · rw [throttle_flow_ahead skb key rate now maps (not_le.mp hle)]
    simp only
    split
    · rfl
    · exact lookup_replace_other _ _ _ _ hne

/-- What a call of `throttle_flow` leaves under its own key when the flow had
state `L` and `L + delay_ns` fits 64 bits. -/
theorem throttle_flow_own_key (skb : sk_buff) (key : flow_key) (rate now L : Nat)
    (maps : Maps)
    (hL : bpf_map_lookup_elem maps.flow_map key = some L)
    (hfit : L + throttle_delay_ns skb.len rate < 2 ^ 64) :
    ∃ L1, bpf_map_lookup_elem (throttle_flow skb key rate now maps).maps.flow_map key = some L1
      ∧ L ≤ L1
      ∧ (L + throttle_delay_ns skb.len rate ≤ max skb.tstamp now →
          L1 = max skb.tstamp now ∧ L + throttle_delay_ns skb.len rate ≤ L1)
      ∧ (max skb.tstamp now < L + throttle_delay_ns skb.len rate →
          L + throttle_delay_ns skb.len rate - now < 2000000000 →
          L1 = L + throttle_delay_ns skb.len rate)
      ∧ (max skb.tstamp now < L + throttle_delay_ns skb.len rate →
          2000000000 ≤ L + throttle_delay_ns skb.len rate - now → L1 = L) := by
  have hn : throttle_next_tstamp (bpf_map_lookup_elem maps.flow_map key)
      (throttle_delay_ns skb.len rate) = L + throttle_delay_ns skb.len rate := by
    rw [hL]
    exact u64_of_lt _ hfit
  by_cases hle : L + throttle_delay_ns skb.len rate ≤ max skb.tstamp now
  · rw [throttle_flow_due skb key rate now maps (by rw [hn]; exact hle),
      update_any_of_lookup _ _ L _ hL]
    refine ⟨max skb.tstamp now, lookup_replace_self _ _ L _ hL, by omega,
      fun _ => ⟨rfl, hle⟩, fun h => by omega, fun h => by omega⟩
  · rw [throttle_flow_ahead skb key rate now maps (by rw [hn]; exact not_le.mp hle)]
    simp only [hn, TIME_HORIZON_NS]
    by_cases hz : 2000000000 ≤ L + throttle_delay_ns skb.len rate - now
    · rw [if_pos (by omega)]
      exact ⟨L, hL, le_refl _, fun h => absurd h hle, fun _ h => by omega, fun _ _ => rfl⟩
    · rw [if_neg (by omega)]
      exact ⟨L + throttle_delay_ns skb.len rate, lookup_replace_self _ _ L _ hL, by omega,
        fun h => absurd h hle, fun _ _ => rfl, fun _ h => absurd h hz⟩

/-- One fitting call never lowers the stored state of any key. -/
theorem call_monotone (maps : Maps) (c : Call) (hfit : call_fits maps c = true)
    (k : flow_key) (Lk : Nat) (hk : bpf_map_lookup_elem maps.flow_map k = some Lk) :
    ∃ L1, bpf_map_lookup_elem (throttle_flow c.skb c.key c.rate c.now maps).maps.flow_map k
        = some L1 ∧ Lk ≤ L1 := by
  by_cases hkey : k = c.key
  · subst hkey
    simp only [call_fits, hk, Bool.and_eq_true, decide_eq_true_eq] at hfit
    obtain ⟨L1, h1, h2, _⟩ := throttle_flow_own_key c.skb c.key c.rate c.now Lk maps hk hfit.2
    exact ⟨L1, h1, h2⟩
  · exact ⟨Lk, by rw [throttle_flow_other_key _ _ _ _ _ _ hkey]; exact hk, le_refl _⟩

/-- Along a fitting sequence of calls the stored state of a key never decreases. -/
theorem run_calls_monotone (cs : List Call) :
    ∀ (maps : Maps), calls_fit maps cs = true →
      ∀ (k : flow_key) (Lk : Nat), bpf_map_lookup_elem maps.flow_map k = some Lk →
        ∃ L2, bpf_map_lookup_elem (run_calls maps cs).flow_map k = some L2 ∧ Lk ≤ L2 := by
  induction cs with
  | nil => intro maps _ k Lk hk; exact ⟨Lk, hk, le_refl _⟩
  | cons c cs ih =>
    intro maps hfit k Lk hk
    simp only [calls_fit, Bool.and_eq_true] at hfit
    obtain ⟨L1, h1, hle1⟩ := call_monotone maps c hfit.1 k Lk hk
    obtain ⟨L2, h2, hle2⟩ := ih _ hfit.2 k L1 h1
    exact ⟨L2, h2, le_trans hle1 hle2⟩

/-- C10. Monotone flow state. For a call of `throttle_flow` on a flow whose
stored state is `L`, with a positive rate and `L + delay_ns` within 64 bits
(`calls_fit`), the value stored for the flow after the call is `>= L`: in the
idle case it is `max(ts, now) >= L + delay_ns`, in the paced case it is
`L + delay_ns`, and after a horizon drop it is still `L`; this for arbitrary
`now`, packet timestamp and length. Hence along the whole sequence of calls,
the first one included, the stored value of every key is non-decreasing. -/
theorem flow_state_monotone (maps : Maps) (c : Call) (cs : List Call) (L : Nat)
    (hL : bpf_map_lookup_elem maps.flow_map c.key = some L)
    (hfit : calls_fit maps (c :: cs) = true) :
    (∃ L1, bpf_map_lookup_elem (throttle_flow c.skb c.key c.rate c.now maps).maps.flow_map c.key
        = some L1
      ∧ L ≤ L1
      ∧ (L + throttle_delay_ns c.skb.len c.rate ≤ max c.skb.tstamp c.now →
          L1 = max c.skb.tstamp c.now ∧ L + throttle_delay_ns c.skb.len c.rate ≤ L1)
      ∧ (max c.skb.tstamp c.now < L + throttle_delay_ns c.skb.len c.rate →
          L + throttle_delay_ns c.skb.len c.rate - c.now < 2000000000 →
          L1 = L + throttle_delay_ns c.skb.len c.rate)
      ∧ (max c.skb.tstamp c.now < L + throttle_delay_ns c.skb.len c.rate →
          2000000000 ≤ L + throttle_delay_ns c.skb.len c.rate - c.now → L1 = L))
    ∧ (∀ (k : flow_key) (Lk : Nat), bpf_map_lookup_elem maps.flow_map k = some Lk →
        ∃ L2, bpf_map_lookup_elem (run_calls maps (c :: cs)).flow_map k = some L2 ∧ Lk ≤ L2) := by
  constructor
  · have h := hfit
    simp only [calls_fit, call_fits, hL, Bool.and_eq_true, decide_eq_true_eq] at h
    exact throttle_flow_own_key c.skb c.key c.rate c.now L maps hL h.1.2
  · exact run_calls_monotone (c :: cs) maps hfit

/-- Witness of C10: the flow stands at `T = 10^12`; a paced call at `T + 100`,
a second paced call at `T + 200` and an idle call at `T + 10^10` follow. The
first call stores `T + 1,500,000`, and the value after all three is `>= T`. -/
theorem flow_state_monotone_witness :
    bpf_map_lookup_elem
        (throttle_flow (sample_call 1000000000100).skb (sample_call 1000000000100).key
          (sample_call 1000000000100).rate (sample_call 1000000000100).now
          ⟨[(sample_key, 1000000000000)], []⟩).maps.flow_map sample_key
        = some 1000001500000
    ∧ ∃ L2, bpf_map_lookup_elem
        (run_calls ⟨[(sample_key, 1000000000000)], []⟩
          [sample_call 1000000000100, sample_call 1000000000200,
            sample_call 1010000000000]).flow_map sample_key = some L2
        ∧ 1000000000000 ≤ L2 := by
  have h := flow_state_monotone ⟨[(sample_key, 1000000000000)], []⟩
    (sample_call 1000000000100) [sample_call 1000000000200, sample_call 1010000000000]
    1000000000000 (by decide) (by decide)
  obtain ⟨⟨L1, h1, _, _, hpaced, _⟩, hseq⟩ := h
  have hL1 : L1 = 1000000000000
      + throttle_delay_ns (sample_call 1000000000100).skb.len (sample_call 1000000000100).rate :=
    hpaced (by decide) (by decide)
  have hval : 1000000000000
      + throttle_delay_ns (sample_call 1000000000100).skb.len (sample_call 1000000000100).rate
      = 1000001500000 := by decide
  exact ⟨h1.trans (by rw [hL1, hval]), hseq sample_key 1000000000000 (by decide)⟩

/-! ## Bounded backlog -/

/-- C11, as stated, fails: a packet that already carries a timestamp 3 s ahead
of the clock (`ts = 3,000,001,000`, `now = 1000`) on a flow without state takes
the idle branch, is forwarded, and its timestamp is stored as the flow's state,
which is not below `now + 2,000,000,000`. -/
theorem throttle_flow_backlog_counterexample :
    (throttle_flow ⟨1500, 1, 3000001000, []⟩ sample_key 1000000 1000 ⟨[], []⟩).ret = TC_ACT_OK
      ∧ bpf_map_lookup_elem
          (throttle_flow ⟨1500, 1, 3000001000, []⟩ sample_key 1000000 1000
            ⟨[], []⟩).maps.flow_map sample_key = some 3000001000
      ∧ ¬ 3000001000 < 1000 + 2000000000 := by
  decide

/-- C11, amended. For every call of `throttle_flow` that does not drop the
packet and whose incoming packet timestamp is below `now + 2,000,000,000`, the
flow has a stored state after the call and it is less than
`now + 2,000,000,000`. -/
theorem throttle_flow_bounded_backlog (skb : sk_buff) (key : flow_key) (rate now : Nat)
    (maps : Maps)
    (hret : (throttle_flow skb key rate now maps).ret = TC_ACT_OK)
    (hts : skb.tstamp < now + 2000000000) :
    ∃ v, bpf_map_lookup_elem (throttle_flow skb key rate now maps).maps.flow_map key = some v
      ∧ v < now + 2000000000 := by
  by_cases hle : throttle_next_tstamp (bpf_map_lookup_elem maps.flow_map key)
      (throttle_delay_ns skb.len rate) ≤ max skb.tstamp now
  · rw [throttle_flow_due skb key rate now maps hle] at hret ⊢
    cases hu : bpf_map_update_elem maps.flow_map key (max skb.tstamp now) BPF_ANY with
    | none =>
      rw [hu] at hret
      simp [TC_ACT_OK, TC_ACT_SHOT] at hret
    | some fm =>
      refine ⟨max skb.tstamp now, lookup_update_self _ _ _ _ _ hu, ?_⟩
      exact max_lt hts (by omega)
  · have hgt := not_le.mp hle
    rw [throttle_flow_ahead skb key rate now maps hgt] at hret ⊢
    simp only [TIME_HORIZON_NS] at hret ⊢
    by_cases hz : 2000000000 ≤ throttle_next_tstamp (bpf_map_lookup_elem maps.flow_map key)
        (throttle_delay_ns skb.len rate) - now
    · rw [if_pos (by omega)] at hret
      simp [TC_ACT_OK, TC_ACT_SHOT] at hret
    · rw [if_neg (by omega)]
      cases hl : bpf_map_lookup_elem maps.flow_map key with
      | none =>
        rw [hl] at hgt
        simp [throttle_next_tstamp] at hgt
      | some L =>
        rw [hl] at hz
        exact ⟨_, lookup_replace_self _ _ L _ hl, by omega⟩

/-- Witness of the amended C11: the paced call of the spec scenario
(`L = T = 10^12`, `now = T + 100`, `ts = 0`) leaves a state below `now + 2 s`. -/
theorem throttle_flow_bounded_backlog_witness :
    ∃ v, bpf_map_lookup_elem
        (throttle_flow ⟨1500, 1, 0, []⟩ sample_key 1000000 1000000000100
          ⟨[(sample_key, 1000000000000)], []⟩).maps.flow_map sample_key = some v
      ∧ v < 1000000000100 + 2000000000 :=
  throttle_flow_bounded_backlog ⟨1500, 1, 0, []⟩ sample_key 1000000 1000000000100
    ⟨[(sample_key, 1000000000000)], []⟩ (by decide) (by decide)

/-! ## Frame properties -/

/-- The fixed-delay injector hands back the maps it was given. -/
theorem inject_delay_maps (skb : sk_buff) (delay_ms now : Nat) (maps : Maps) :
    (inject_delay skb delay_ms now maps).maps = maps := by
  unfold inject_delay
  simp only
  split <;> rfl

/-- The pacing scheduler never changes the policy table. -/
theorem throttle_flow_policy (skb : sk_buff) (key : flow_key) (rate now : Nat) (maps : Maps) :
    (throttle_flow skb key rate now maps).maps.MAC_HANDLE_BPS_DELAY
      = maps.MAC_HANDLE_BPS_DELAY := by
  by_cases hle : throttle_next_tstamp (bpf_map_lookup_elem maps.flow_map key)
      (throttle_delay_ns skb.len rate) ≤ max skb.tstamp now
  · rw [throttle_flow_due skb key rate now maps hle]
    cases bpf_map_update_elem maps.flow_map key (max skb.tstamp now) BPF_ANY <;> rfl
  · rw [throttle_flow_ahead skb key rate now maps (not_le.mp hle)]
    simp only
    split <;> rfl

/-- C12. Single-key write scope. A call of `throttle_flow` with flow key `key`
leaves the state-store entry of every other key as it was; so does a call of
`tc_main` for every key other than the one derived from the packet (interface
index and parsed source address); and none of `tc_main`, `set_delay`,
`throttle_flow`, `inject_delay` changes the policy table. -/
theorem single_key_write_scope (skb : sk_buff) (key other : flow_key)
    (rate delay_ms now : Nat) (maps : Maps) (hne : other ≠ key) :
    bpf_map_lookup_elem (throttle_flow skb key rate now maps).maps.flow_map other
        = bpf_map_lookup_elem maps.flow_map other
      ∧ ((∀ h_source, parse_ethhdr skb.data = some h_source → other ≠ ⟨skb.ifindex, h_source⟩) →
          bpf_map_lookup_elem (tc_main skb now maps).maps.flow_map other
            = bpf_map_lookup_elem maps.flow_map other)
      ∧ (tc_main skb now maps).maps.MAC_HANDLE_BPS_DELAY = maps.MAC_HANDLE_BPS_DELAY
      ∧ (set_delay skb now maps).maps.MAC_HANDLE_BPS_DELAY = maps.MAC_HANDLE_BPS_DELAY
      ∧ (throttle_flow skb key rate now maps).maps.MAC_HANDLE_BPS_DELAY
          = maps.MAC_HANDLE_BPS_DELAY
      ∧ (inject_delay skb delay_ms now maps).maps.MAC_HANDLE_BPS_DELAY
          = maps.MAC_HANDLE_BPS_DELAY := by
  refine ⟨throttle_flow_other_key skb key other rate now maps hne, ?_, ?_, ?_,
    throttle_flow_policy skb key rate now maps, by rw [inject_delay_maps]⟩
  · intro hother
    unfold tc_main
    cases hp : parse_ethhdr skb.data with
    | none => rfl
    | some h_source =>
      simp only
      cases bpf_map_lookup_elem maps.MAC_HANDLE_BPS_DELAY ⟨skb.ifindex, h_source⟩ with
      | none => rfl
      | some val_struct => exact throttle_flow_other_key _ _ _ _ _ _ (hother h_source hp)
  · unfold tc_main
    cases parse_ethhdr skb.data with
    | none => rfl
    | some h_source =>
      simp only
      cases bpf_map_lookup_elem maps.MAC_HANDLE_BPS_DELAY ⟨skb.ifindex, h_source⟩ with
      | none => rfl
      | some val_struct => exact throttle_flow_policy _ _ _ _ _
  · unfold set_delay
    cases parse_ethhdr skb.data with
    | none => rfl
    | some h_source =>
      simp only
      cases bpf_map_lookup_elem maps.MAC_HANDLE_BPS_DELAY ⟨skb.ifindex, h_source⟩ with
      | none => rfl
      | some val_struct => simp only [inject_delay_maps]

/-- Witness of C12: a throttled packet of `sample_key` on interface 1, while
the state store also holds an entry for the same address on interface 7; that
entry and the policy table are the same after `tc_main` and `throttle_flow`. -/
theorem single_key_write_scope_witness :
    bpf_map_lookup_elem
        (throttle_flow ⟨1500, 1, 0, [0, 0, 0, 0, 0, 9, 2, 0, 0, 0, 0, 1, 8, 0]⟩ sample_key
          1000000 1000000000100
          ⟨[(sample_key, 1000000000000), (⟨7, [2, 0, 0, 0, 0, 1]⟩, 5)],
            [(sample_key, ⟨1, 1000000, 10⟩)]⟩).maps.flow_map ⟨7, [2, 0, 0, 0, 0, 1]⟩ = some 5
    ∧ bpf_map_lookup_elem
        (tc_main ⟨1500, 1, 0, [0, 0, 0, 0, 0, 9, 2, 0, 0, 0, 0, 1, 8, 0]⟩ 1000000000100
          ⟨[(sample_key, 1000000000000), (⟨7, [2, 0, 0, 0, 0, 1]⟩, 5)],
            [(sample_key, ⟨1, 1000000, 10⟩)]⟩).maps.flow_map ⟨7, [2, 0, 0, 0, 0, 1]⟩ = some 5
    ∧ (tc_main ⟨1500, 1, 0, [0, 0, 0, 0, 0, 9, 2, 0, 0, 0, 0, 1, 8, 0]⟩ 1000000000100
          ⟨[(sample_key, 1000000000000), (⟨7, [2, 0, 0, 0, 0, 1]⟩, 5)],
            [(sample_key, ⟨1, 1000000, 10⟩)]⟩).maps.MAC_HANDLE_BPS_DELAY
        = [(sample_key, ⟨1, 1000000, 10⟩)] := by
  have h := single_key_write_scope ⟨1500, 1, 0, [0, 0, 0, 0, 0, 9, 2, 0, 0, 0, 0, 1, 8, 0]⟩
    sample_key ⟨7, [2, 0, 0, 0, 0, 1]⟩ 1000000 10 1000000000100
    ⟨[(sample_key, 1000000000000), (⟨7, [2, 0, 0, 0, 0, 1]⟩, 5)],
      [(sample_key, ⟨1, 1000000, 10⟩)]⟩ (by decide)
  refine ⟨h.1.trans (by decide), (h.2.1 ?_).trans (by decide), h.2.2.1⟩
  intro h_source hp
  have hs : h_source = [2, 0, 0, 0, 0, 1] := by
    have hp2 : parse_ethhdr [0, 0, 0, 0, 0, 9, 2, 0, 0, 0, 0, 1, 8, 0]
        = some [2, 0, 0, 0, 0, 1] := by decide
    exact Option.some.inj (hp.symm.trans hp2)
  rw [hs]
  decide

/-- C13. The fixed-delay injector never drops, marks or touches flow state:
for every packet, `delay_ms` and `now`, `inject_delay` returns the forward
verdict, does not call `bpf_skb_ecn_set_ce`, makes no tail call and hands back
both maps unchanged; of the packet only the timestamp can differ. -/
theorem inject_delay_only_timestamp (skb : sk_buff) (delay_ms now : Nat) (maps : Maps) :
    (inject_delay skb delay_ms now maps).ret = TC_ACT_OK
      ∧ (inject_delay skb delay_ms now maps).ecn_ce = false
      ∧ (inject_delay skb delay_ms now maps).maps = maps
      ∧ (inject_delay skb delay_ms now maps).tail_call = none
      ∧ (inject_delay skb delay_ms now maps).skb
          = { skb with tstamp := (inject_delay skb delay_ms now maps).skb.tstamp } := by
  unfold inject_delay
  simp only
  split <;> exact ⟨rfl, rfl, rfl, rfl, rfl⟩

/-- C14. Service-time arithmetic is exact: for every 32-bit packet length and
every rate `r > 0`, the product `len * 1,000,000,000` is below `2^64`, so the
64-bit product of line 113 does not wrap and `delay_ns` is the mathematical
`floor(len * 1,000,000,000 / r)`. -/
theorem throttle_delay_ns_exact (len rate : Nat) (hlen : len < 2 ^ 32) (hrate : 0 < rate) :
    len * 1000000000 < 2 ^ 64
      ∧ u64 (len * NS_PER_SEC) = len * 1000000000
      ∧ throttle_delay_ns len rate = len * 1000000000 / rate := by
  have hprod : len * 1000000000 < 2 ^ 64 := by omega
  have hu : u64 (len * NS_PER_SEC) = len * 1000000000 := by
    unfold u64 NS_PER_SEC
    exact Nat.mod_eq_of_lt hprod
  refine ⟨hprod, hu, ?_⟩
  unfold throttle_delay_ns u64_div
  rw [if_neg (by omega), hu]

/-- Witness of C14: the largest 32-bit length at rate 3. -/
theorem throttle_delay_ns_exact_witness :
    4294967295 * 1000000000 < 2 ^ 64
      ∧ u64 (4294967295 * NS_PER_SEC) = 4294967295 * 1000000000
      ∧ throttle_delay_ns 4294967295 3 = 4294967295 * 1000000000 / 3 :=
  throttle_delay_ns_exact 4294967295 3 (by norm_num) (by norm_num)

/-! ## The scheduler and the packet timestamp -/

/-- C15. The pacing scheduler never moves a packet earlier: after a call of
`throttle_flow` the packet's timestamp is `>=` its timestamp before, and either
the packet is exactly what it was or its new timestamp is strictly greater than
`max(ts, now)`. -/
theorem throttle_flow_never_earlier (skb : sk_buff) (key : flow_key) (rate now : Nat)
    (maps : Maps) :
    skb.tstamp ≤ (throttle_flow skb key rate now maps).skb.tstamp
      ∧ ((throttle_flow skb key rate now maps).skb = skb
          ∨ max skb.tstamp now < (throttle_flow skb key rate now maps).skb.tstamp)
      ∧ ((throttle_flow skb key rate now maps).skb.tstamp ≠ skb.tstamp →
          max skb.tstamp now < (throttle_flow skb key rate now maps).skb.tstamp) := by
  by_cases hle : throttle_next_tstamp (bpf_map_lookup_elem maps.flow_map key)
      (throttle_delay_ns skb.len rate) ≤ max skb.tstamp now
  · rw [throttle_flow_due skb key rate now maps hle]
    cases bpf_map_update_elem maps.flow_map key (max skb.tstamp now) BPF_ANY <;>
      exact ⟨le_refl _, Or.inl rfl, fun h => absurd rfl h⟩
  · have hgt := not_le.mp hle
    have hts : skb.tstamp < throttle_next_tstamp (bpf_map_lookup_elem maps.flow_map key)
        (throttle_delay_ns skb.len rate) := lt_of_le_of_lt (le_max_left _ _) hgt
    rw [throttle_flow_ahead skb key rate now maps hgt]
    simp only
    split
    · exact ⟨le_refl _, Or.inl rfl, fun h => absurd rfl h⟩
    · exact ⟨le_of_lt hts, Or.inr hgt, fun _ => hgt⟩

/-! ## Zero delay -/

/-- C16, as stated, fails: a well-formed packet with unset timestamp (0) whose
policy entry has `delay_ms = 0` leaves `set_delay` at `now = 1000` with
timestamp 1000, not 0. -/
theorem set_delay_zero_counterexample :
    (set_delay ⟨1500, 1, 0, [0, 0, 0, 0, 0, 9, 2, 0, 0, 0, 0, 1, 8, 0]⟩ 1000
        ⟨[], [(sample_key, ⟨1, 1000000, 0⟩)]⟩).ret = TC_ACT_OK
      ∧ (set_delay ⟨1500, 1, 0, [0, 0, 0, 0, 0, 9, 2, 0, 0, 0, 0, 1, 8, 0]⟩ 1000
        ⟨[], [(sample_key, ⟨1, 1000000, 0⟩)]⟩).skb.tstamp = 1000
      ∧ (set_delay ⟨1500, 1, 0, [0, 0, 0, 0, 0, 9, 2, 0, 0, 0, 0, 1, 8, 0]⟩ 1000
        ⟨[], [(sample_key, ⟨1, 1000000, 0⟩)]⟩).skb.tstamp ≠ 0 := by
  decide

/-- C16, amended. For every well-formed packet whose policy entry has
`delay_ms = 0` (timestamp and clock being 64-bit values), `set_delay` forwards
the packet and adds no delay: a packet with a non-zero timestamp keeps it, and
a packet whose timestamp is 0 (unset) gets the clock reading `now` as its
timestamp; nothing else changes. -/
theorem set_delay_zero (skb : sk_buff) (now : Nat) (maps : Maps) (h_source : List Nat)
    (val_struct : handle_bps_delay)
    (hwf : parse_ethhdr skb.data = some h_source)
    (hpol : bpf_map_lookup_elem maps.MAC_HANDLE_BPS_DELAY ⟨skb.ifindex, h_source⟩
      = some val_struct)
    (hzero : val_struct.delay_ms = 0)
    (hts : skb.tstamp < 2 ^ 64) (hnow : now < 2 ^ 64) :
    set_delay skb now maps
      = ⟨TC_ACT_OK, { skb with tstamp := if skb.tstamp = 0 then now else skb.tstamp },
          maps, false, none⟩ := by
  unfold set_delay
  rw [hwf]
  simp only [hpol, hzero]
  unfold inject_delay inject_delay_ns u32 u64
  simp only [Nat.zero_mul, Nat.zero_mod, Nat.add_zero]
  rw [Nat.mod_eq_of_lt hts, Nat.mod_eq_of_lt hnow]
  split
  · rename_i h0
    simp [h0]
  · rename_i h0
    simp [h0]

/-- Witness of the amended C16: a packet already scheduled at 77 keeps 77. -/
theorem set_delay_zero_witness :
    set_delay ⟨1500, 1, 77, [0, 0, 0, 0, 0, 9, 2, 0, 0, 0, 0, 1, 8, 0]⟩ 1000
        ⟨[], [(sample_key, ⟨1, 1000000, 0⟩)]⟩
      = ⟨TC_ACT_OK,
          { (⟨1500, 1, 77, [0, 0, 0, 0, 0, 9, 2, 0, 0, 0, 0, 1, 8, 0]⟩ : sk_buff) with
            tstamp := if (⟨1500, 1, 77, [0, 0, 0, 0, 0, 9, 2, 0, 0, 0, 0, 1, 8, 0]⟩
              : sk_buff).tstamp = 0 then 1000
              else (⟨1500, 1, 77, [0, 0, 0, 0, 0, 9, 2, 0, 0, 0, 0, 1, 8, 0]⟩ : sk_buff).tstamp },
          ⟨[], [(sample_key, ⟨1, 1000000, 0⟩)]⟩, false, none⟩ :=
  set_delay_zero ⟨1500, 1, 77, [0, 0, 0, 0, 0, 9, 2, 0, 0, 0, 0, 1, 8, 0]⟩ 1000
    ⟨[], [(sample_key, ⟨1, 1000000, 0⟩)]⟩ [2, 0, 0, 0, 0, 1] ⟨1, 1000000, 0⟩
    (by decide) (by decide) rfl (by norm_num) (by norm_num)

/-! ## Flows without state -/

/-- C17. A flow with no stored state always takes the idle branch: if the
state store has no entry for the key, `throttle_flow` does not call
`bpf_skb_ecn_set_ce`, leaves the packet (timestamp included) as it was, and
drops exactly when the insert fails, that is when the store already holds
`MAX_ENTRIES` entries; otherwise it forwards and records `max(ts, now)`.
Consequently, whenever the slot is ahead of `max(ts, now)`, the only case in
which the update-only (`BPF_EXIST`) write can be reached, the lookup of the
same call found the key, and on the same maps that write succeeds. -/
theorem throttle_flow_no_state (skb : sk_buff) (key : flow_key) (rate now : Nat)
    (maps : Maps) :
    (bpf_map_lookup_elem maps.flow_map key = none →
        (throttle_flow skb key rate now maps).ecn_ce = false
          ∧ (throttle_flow skb key rate now maps).skb = skb
          ∧ ((throttle_flow skb key rate now maps).ret = TC_ACT_SHOT
              ↔ MAX_ENTRIES ≤ maps.flow_map.length)
          ∧ (maps.flow_map.length < MAX_ENTRIES →
              (throttle_flow skb key rate now maps).ret = TC_ACT_OK
                ∧ bpf_map_lookup_elem (throttle_flow skb key rate now maps).maps.flow_map key
                    = some (max skb.tstamp now)))
      ∧ (max skb.tstamp now < throttle_next_tstamp (bpf_map_lookup_elem maps.flow_map key)
            (throttle_delay_ns skb.len rate) →
          ∃ L, bpf_map_lookup_elem maps.flow_map key = some L
            ∧ bpf_map_update_elem maps.flow_map key
                (throttle_next_tstamp (bpf_map_lookup_elem maps.flow_map key)
                  (throttle_delay_ns skb.len rate)) BPF_EXIST
              = some (map_replace maps.flow_map key
                  (throttle_next_tstamp (bpf_map_lookup_elem maps.flow_map key)
                    (throttle_delay_ns skb.len rate)))) := by
  constructor
  · intro hnone
    have hle : throttle_next_tstamp (bpf_map_lookup_elem maps.flow_map key)
        (throttle_delay_ns skb.len rate) ≤ max skb.tstamp now := by
      rw [hnone]; simp [throttle_next_tstamp]
    rw [throttle_flow_due skb key rate now maps hle, update_any_of_missing _ _ _ hnone]
    by_cases hcap : maps.flow_map.length < MAX_ENTRIES
    · rw [if_pos hcap]
      refine ⟨rfl, rfl, ⟨fun h => ?_, fun h => by omega⟩, fun _ => ⟨rfl, ?_⟩⟩
      · simp [TC_ACT_OK, TC_ACT_SHOT] at h
      · exact lookup_append_self _ _ _ hnone
    · rw [if_neg hcap]
      exact ⟨rfl, rfl, ⟨fun _ => by omega, fun _ => rfl⟩, fun h => absurd h hcap⟩
  · intro hgt
    cases hl : bpf_map_lookup_elem maps.flow_map key with
    | none =>
      rw [hl] at hgt
      simp [throttle_next_tstamp] at hgt
    | some L => exact ⟨L, rfl, update_exist_of_lookup _ _ L _ hl⟩

/-- Witness of C17: a first packet of `sample_key` with a timestamp 3 s ahead
on an empty store is forwarded untouched and unmarked, and the paced second
packet of the spec scenario finds its entry for the update-only write. -/
theorem throttle_flow_no_state_witness :
    ((throttle_flow ⟨1500, 1, 3000001000, []⟩ sample_key 1000000 1000 ⟨[], []⟩).ecn_ce = false
      ∧ (throttle_flow ⟨1500, 1, 3000001000, []⟩ sample_key 1000000 1000 ⟨[], []⟩).skb
          = ⟨1500, 1, 3000001000, []⟩
      ∧ (throttle_flow ⟨1500, 1, 3000001000, []⟩ sample_key 1000000 1000 ⟨[], []⟩).ret
          = TC_ACT_OK)
    ∧ ∃ L, bpf_map_lookup_elem [(sample_key, 1000000000000)] sample_key = some L := by
  have hfirst := (throttle_flow_no_state ⟨1500, 1, 3000001000, []⟩ sample_key 1000000 1000
    ⟨[], []⟩).1 rfl
  have hsecond := (throttle_flow_no_state ⟨1500, 1, 0, []⟩ sample_key 1000000 1000000000100
    ⟨[(sample_key, 1000000000000)], []⟩).2 (by decide)
  obtain ⟨L, hL, _⟩ := hsecond
  exact ⟨⟨hfirst.1, hfirst.2.1, (hfirst.2.2.2 (by decide)).1⟩, ⟨L, hL⟩⟩

/-! ## Width of the injected delay -/

/-- C18. The injected delay is computed in 32-bit unsigned arithmetic: for
every `delay_ms = d`, `inject_delay` adds `(d * 1,000,000) mod 2^32`
nanoseconds to its base (the clock for an unset timestamp, the timestamp
otherwise; the sum is a 64-bit one); that amount is below `2^32`, and it
equals `d * 1,000,000` if and only if `d <= 4294`. -/
theorem inject_delay_32bit (skb : sk_buff) (d now : Nat) (maps : Maps) :
    (inject_delay skb d now maps).skb.tstamp
        = ((if skb.tstamp = 0 then now else skb.tstamp) + d * 1000000 % 2 ^ 32) % 2 ^ 64
      ∧ inject_delay_ns d = d * 1000000 % 2 ^ 32
      ∧ inject_delay_ns d < 2 ^ 32
      ∧ (inject_delay_ns d = d * 1000000 ↔ d ≤ 4294) := by
  have hns : inject_delay_ns d = d * 1000000 % 2 ^ 32 := rfl
  refine ⟨?_, hns, ?_, ?_⟩
  · unfold inject_delay
    simp only [hns, u64]
    split
    · rename_i h0
      simp [h0]
    · rename_i h0
      simp [h0]
  · rw [hns]
    exact Nat.mod_lt _ (by norm_num)
  · rw [hns]
    constructor
    · intro h
      have hlt : d * 1000000 < 2 ^ 32 := by
        rw [← h]
        exact Nat.mod_lt _ (by norm_num)
      omega
    · intro h
      exact Nat.mod_eq_of_lt (by omega)

/-! ## The horizon differences -/

/-- C19. No unsigned underflow in the horizon tests. The differences
`next_tstamp - now` of lines 139 and 143 are evaluated only when the test of
line 128 failed; then `next_tstamp > max(ts, now) >= now`, the 64-bit
subtraction does not wrap and equals the difference of the two numbers as
integers, and the rest of the body is what one gets with that difference. -/
theorem horizon_sub_no_wrap (last_tstamp : Option Nat) (skb : sk_buff) (key : flow_key)
    (rate now : Nat) (maps : Maps)
    (hreach : ¬ throttle_next_tstamp last_tstamp (throttle_delay_ns skb.len rate)
        ≤ throttle_tstamp skb now) :
    max skb.tstamp now < throttle_next_tstamp last_tstamp (throttle_delay_ns skb.len rate)
      ∧ now ≤ max skb.tstamp now
      ∧ u64_sub (throttle_next_tstamp last_tstamp (throttle_delay_ns skb.len rate)) now
          = throttle_next_tstamp last_tstamp (throttle_delay_ns skb.len rate) - now
      ∧ ((u64_sub (throttle_next_tstamp last_tstamp (throttle_delay_ns skb.len rate)) now : Nat)
            : Int)
          = (throttle_next_tstamp last_tstamp (throttle_delay_ns skb.len rate) : Int)
              - (now : Int)
      ∧ throttle_flow_from last_tstamp skb key rate now maps
          = (if 2000000000 ≤ throttle_next_tstamp last_tstamp (throttle_delay_ns skb.len rate)
                - now then
              ⟨TC_ACT_SHOT, skb, maps, false, none⟩
            else
              match bpf_map_update_elem maps.flow_map key
                  (throttle_next_tstamp last_tstamp (throttle_delay_ns skb.len rate))
                  BPF_EXIST with
              | none =>
                ⟨TC_ACT_SHOT, skb, maps,
                  decide (500000000 ≤ throttle_next_tstamp last_tstamp
                    (throttle_delay_ns skb.len rate) - now), none⟩
              | some fm =>
                ⟨TC_ACT_OK,
                  { skb with
                    tstamp := (throttle_next_tstamp last_tstamp (throttle_delay_ns skb.len rate)) },
                  { maps with flow_map := fm },
                  decide (500000000 ≤ throttle_next_tstamp last_tstamp
                    (throttle_delay_ns skb.len rate) - now), some 0⟩) := by
  have hgt : max skb.tstamp now
      < throttle_next_tstamp last_tstamp (throttle_delay_ns skb.len rate) := by
    rw [← throttle_tstamp_eq_max]
    exact not_le.mp hreach
  have hnow : now ≤ throttle_next_tstamp last_tstamp (throttle_delay_ns skb.len rate) :=
    le_trans (le_max_right _ _) (le_of_lt hgt)
  have hsub := u64_sub_of_le _ _ hnow
    (throttle_next_tstamp_lt last_tstamp (throttle_delay_ns skb.len rate))
  refine ⟨hgt, le_max_right _ _, hsub, ?_, ?_⟩
  · rw [hsub]
    exact Int.ofNat_sub hnow
  · unfold throttle_flow_from
    simp only [hsub, TIME_HORIZON_NS, ECN_HORIZON_NS]
    rw [if_neg hreach]

/-- Witness of C19: the paced call of the spec scenario (`L = T = 10^12`,
`now = T + 100`): the difference is 1,499,900. -/
theorem horizon_sub_no_wrap_witness :
    u64_sub (throttle_next_tstamp (some 1000000000000) (throttle_delay_ns 1500 1000000))
        1000000000100 = 1499900 := by
  have h := horizon_sub_no_wrap (some 1000000000000) ⟨1500, 1, 0, []⟩ sample_key 1000000
    1000000000100 ⟨[(sample_key, 1000000000000)], []⟩ (by decide)
  exact h.2.2.1.trans (by decide)

end NetSim
